import Mathlib

/-!
Verification of the `clarinet-object-stream` adapter (src/index.js): a
Transform-stream wrapper that feeds JSON text chunks into the Clarinet
SAX-style parser and re-exposes the parser's callback events as a stream
of discrete `ParseEvent` objects.

The shallow embedding below translates the adapter's own code
(the relay handlers registered in the constructor, `_transform`, the
`parseStream.on('data')` handler, `_pushToParseEventQueue`, and the
constructor's option handling) into executable Lean definitions, and
models the host stream library's documented flow-control machinery
(buffering, delivery, the terminal `end` notification) as a small labeled
transition system, since that machinery lives in the host library and not
in this repository's sources.
-/

namespace ClarinetStream

/-- A JavaScript value as it appears in the adapter's data flow: payloads of
Clarinet callbacks and the `data` field of emitted parse events. `undefined`
stands for an absent `data` property. -/
inductive JSVal where
  | undefined
  | null
  | bool (b : Bool)
  | num (q : ℚ)
  | str (s : String)
  | errObj (message : String)
deriving DecidableEq, Repr

/-- The unit flowing out of the adapter: `{ type: ..., data: ... }`
(src/index.js, events pushed by the relay handlers). `data` is
`JSVal.undefined` for the event kinds that carry no payload. -/
structure ParseEvent where
  type : String
  data : JSVal
deriving DecidableEq, Repr

/-- Clarinet parse event name constant (src/index.js line 71). -/
def CLOSEARRAY : String := "closearray"

/-- Clarinet parse event name constant (src/index.js line 72). -/
def CLOSEOBJECT : String := "closeobject"

/-- Clarinet parse event name constant (src/index.js line 73). -/
def KEY : String := "key"

/-- Clarinet parse event name constant (src/index.js line 74). -/
def OPENARRAY : String := "openarray"

/-- Clarinet parse event name constant (src/index.js line 75). -/
def OPENOBJECT : String := "openobject"

/-- Clarinet parse event name constant (src/index.js line 76). -/
def VALUE : String := "value"

/-- Clarinet parse event name constant (src/index.js line 92). -/
def ERROR : String := "error"

/-- A callback fired by the wrapped Clarinet parser while chewing on a
chunk. `onEnd` is Clarinet's `end` event, which only fires after
`parseStream.close()`; the adapter never subscribes to it (the handler at
src/index.js lines 125-131 is commented out). -/
inductive ClarinetCallback where
  | closearray
  | closeobject
  | openarray
  | key (name : String)
  | openobject (firstKey : JSVal)
  | value (v : JSVal)
  | error (errInfo : JSVal)
  | onEnd
deriving DecidableEq, Repr

/-- The event relay registered in the constructor (src/index.js lines
112-177): each subscribed Clarinet callback synchronously pushes exactly one
`ParseEvent` via `_pushToParseEventQueue` (which is just `this.push`,
src/index.js lines 205-207). The result list holds the events enqueued by
that one callback, in order; `onEnd` has no subscription, so it enqueues
nothing. -/
def relayEvent : ClarinetCallback → List ParseEvent
  | .closearray => [⟨CLOSEARRAY, .undefined⟩]
  | .closeobject => [⟨CLOSEOBJECT, .undefined⟩]
  | .openarray => [⟨OPENARRAY, .undefined⟩]
  | .key name => [⟨KEY, .str name⟩]
  | .openobject firstKey => [⟨OPENOBJECT, firstKey⟩]
  | .value v => [⟨VALUE, v⟩]
  | .error errInfo => [⟨ERROR, errInfo⟩]
  | .onEnd => []

/-- The events enqueued while the parser processes one chunk: the parser
fires its callbacks in order, and each relay handler pushes its event
immediately and synchronously within the callback, so the chunk's events are
the concatenation of the per-callback events in callback order. -/
def eventsOfChunk (c : List ClarinetCallback) : List ParseEvent :=
  c.flatMap relayEvent

/-- All events enqueued for a whole input, chunk by chunk in order. -/
def eventsOfChunks (cs : List (List ClarinetCallback)) : List ParseEvent :=
  cs.flatMap eventsOfChunk

/-- The event names the constructor subscribes to (src/index.js lines
71-92); `end` is deliberately absent. -/
def subscribedEventNames : List String :=
  [CLOSEARRAY, CLOSEOBJECT, KEY, OPENARRAY, OPENOBJECT, VALUE, ERROR]

theorem relayEvent_type_subscribed (cb : ClarinetCallback) (ev : ParseEvent)
    (h : ev ∈ relayEvent cb) : ev.type ∈ subscribedEventNames := by
  cases cb <;> simp [relayEvent, subscribedEventNames] at h ⊢ <;>
    simp [h]

theorem eventsOfChunk_append (c₁ c₂ : List ClarinetCallback) :
    eventsOfChunk (c₁ ++ c₂) = eventsOfChunk c₁ ++ eventsOfChunk c₂ := by
  simp [eventsOfChunk]

theorem eventsOfChunks_append (a b : List (List ClarinetCallback)) :
    eventsOfChunks (a ++ b) = eventsOfChunks a ++ eventsOfChunks b := by
  simp [eventsOfChunks]

/-! ## Constructor option handling (src/index.js lines 54-57) -/

/-- The options record accepted by the constructor. `none` models an absent
property on the JavaScript options object. -/
structure StreamOptions where
  objectMode : Option Bool
  highWaterMark : Option Nat
deriving DecidableEq, Repr

/-- Constructor option handling (src/index.js lines 54-57):
`options = options || {}; options.objectMode = true;` — a missing or falsy
options argument is replaced by an empty object, and `objectMode` is then
set to `true` unconditionally, overriding any caller-supplied value; other
properties such as `highWaterMark` pass through untouched. -/
def constructorOptions (options : Option StreamOptions) : StreamOptions :=
  let o := options.getD { objectMode := none, highWaterMark := none }
  { o with objectMode := some true }

/-- Modelled from the spec: the host stream library's `highWaterMark`
default for an object-mode stream is 16 (spec section 6); the option itself
is forwarded untouched by the constructor. -/
def effectiveHighWaterMark (o : StreamOptions) : Nat :=
  o.highWaterMark.getD 16

/-! ## The pending-write queue (transformCallbackQueue)

`_transform` (src/index.js lines 191-196) appends its completion callback
at the tail of `transformCallbackQueue` and then writes the chunk to the
parser. The `parseStream.on('data')` handler (src/index.js lines 98-105)
shifts the head of the queue and invokes it; if the queue is empty, `shift`
yields `undefined` and invoking it throws — a fatal protocol violation.
Callbacks are identified by the id of the chunk they acknowledge. -/

/-- The fatal fault of the adapter: the parser signalled chunk-consumed with
no matching pending entry (calling an `undefined` callback throws). -/
inductive StreamFault where
  | protocolViolation
deriving DecidableEq, Repr

/-- `_transform`, queue side (src/index.js line 194):
`this.transformCallbackQueue[this.transformCallbackQueue.length] = callback`
appends the not-yet-resolved callback at the tail. -/
def transformEnqueue (q : List Nat) (cb : Nat) : List Nat :=
  q ++ [cb]

/-- The `parseStream.on('data')` handler (src/index.js lines 98-105):
`var callback = self.transformCallbackQueue.shift(); callback();` — pops the
head of the queue and invokes it; on an empty queue `shift()` returns
`undefined` and `callback()` throws, which is the fatal protocol
violation. -/
def dataHandler (q : List Nat) : Except StreamFault (Nat × List Nat) :=
  match q with
  | [] => .error .protocolViolation
  | cb :: rest => .ok (cb, rest)

/-- An operation on the pending-write queue: a `_transform` call submitting
a chunk (appending its callback), or the parser's chunk-consumed `data`
signal. -/
inductive QOp where
  | submit (id : Nat)
  | consume
deriving DecidableEq, Repr

/-- Queue-machine state: the live queue plus the history of submitted and
resolved callback ids (history fields are ghost state for specification). -/
structure QState where
  queue : List Nat
  submitted : List Nat
  resolved : List Nat
deriving DecidableEq, Repr

/-- Initial queue state: `this.transformCallbackQueue = []`
(src/index.js line 63). -/
def initQState : QState :=
  { queue := [], submitted := [], resolved := [] }

/-- One queue operation: submission appends at the tail via
`transformEnqueue`; a `data` signal runs `dataHandler`, resolving the popped
callback, and aborts with the fault when the queue is empty. -/
def queueStep (s : QState) (op : QOp) : Except StreamFault QState :=
  match op with
  | .submit id =>
      .ok { s with queue := transformEnqueue s.queue id,
                   submitted := s.submitted ++ [id] }
  | .consume =>
      match dataHandler s.queue with
      | .error f => .error f
      | .ok (cb, rest) =>
          .ok { s with queue := rest, resolved := s.resolved ++ [cb] }

/-- Run a sequence of queue operations; a fault aborts the whole run. -/
def runQueue (s : QState) : List QOp → Except StreamFault QState
  | [] => .ok s
  | op :: ops =>
      match queueStep s op with
      | .error f => .error f
      | .ok s' => runQueue s' ops

/-- The queue invariant: the resolved callbacks followed by the live queue
are exactly the submitted callbacks, in submission order. -/
def QInv (s : QState) : Prop :=
  s.submitted = s.resolved ++ s.queue

theorem queueStep_inv (s : QState) (op : QOp) (s' : QState)
    (hinv : QInv s) (h : queueStep s op = .ok s') : QInv s' := by
  cases op with
  | submit id =>
      simp only [queueStep, Except.ok.injEq] at h
      subst h
      simp [QInv, transformEnqueue] at hinv ⊢
      simp [hinv]
  | consume =>
      simp only [queueStep] at h
      cases hq : s.queue with
      | nil => simp [dataHandler, hq] at h
      | cons cb rest =>
          simp [dataHandler, hq] at h
          subst h
          simp [QInv] at hinv ⊢
          simp [hinv, hq]

theorem runQueue_inv (ops : List QOp) (s s' : QState)
    (hinv : QInv s) (h : runQueue s ops = .ok s') : QInv s' := by
  induction ops generalizing s with
  | nil => simp [runQueue] at h; simpa [← h] using hinv
  | cons op ops ih =>
      simp only [runQueue] at h
      cases hstep : queueStep s op with
      | error f => simp [hstep] at h
      | ok t =>
          simp [hstep] at h
          exact ih t (queueStep_inv s op t hinv hstep) h

/-! ## The adapter as a stream: flow control, delivery and termination

Modelled from the spec: the buffering, delivery and termination behavior is
supplied by the host stream library's Transform machinery (spec sections 5
and 6), which is not part of this repository's sources. The adapter's own
contribution — each relay callback pushing one event in order, and the
chunk acknowledgment being withheld until the parser has fully processed
the chunk — is taken from src/index.js as embedded above. Each input chunk
is abstracted as the list of Clarinet callbacks the (out-of-scope) parser
fires for it. -/

/-- Stream state: chunks not yet accepted, chunks already handed to the
parser (ghost), the buffer of enqueued-but-undelivered events, the events
delivered to the consumer (ghost), and whether the terminal `end`
notification has fired. -/
structure SState where
  pendingChunks : List (List ClarinetCallback)
  processed : List (List ClarinetCallback)
  buffer : List ParseEvent
  delivered : List ParseEvent
  endEmitted : Bool
deriving DecidableEq, Repr

/-- Observable transitions of the stream. -/
inductive SLabel where
  | accept (c : List ClarinetCallback)
  | deliver (e : ParseEvent)
  | emitEnd
deriving DecidableEq, Repr

/-- Initial state for a given input. -/
def initSState (chunks : List (List ClarinetCallback)) : SState :=
  { pendingChunks := chunks, processed := [], buffer := [],
    delivered := [], endEmitted := false }

/-- One transition of the stream, at high-water mark `hwm`.

`accept c`: the stream acknowledges the next input chunk — enabled only
while the buffer holds fewer than `hwm` undelivered events (the
backpressure guard, modelled from the spec) — and the parser synchronously
fires the chunk's callbacks, each relay handler pushing its event
(src/index.js lines 112-177), after which the deferred `_transform`
callback is resolved by the `data` handler.

`deliver e`: the consumer takes the oldest buffered event (`read()` in
pull mode or a `data` emission in flowing mode).

`emitEnd`: the terminal `end` notification, enabled only once all input is
processed and every buffered event has been delivered. -/
inductive SStep (hwm : Nat) : SLabel → SState → SState → Prop where
  | accept (s : SState) (c : List ClarinetCallback)
      (rest : List (List ClarinetCallback))
      (hroom : s.buffer.length < hwm)
      (hpending : s.pendingChunks = c :: rest)
      (hlive : s.endEmitted = false) :
      SStep hwm (.accept c) s
        { s with pendingChunks := rest,
                 processed := s.processed ++ [c],
                 buffer := s.buffer ++ eventsOfChunk c }
  | deliver (s : SState) (e : ParseEvent) (rest : List ParseEvent)
      (hbuf : s.buffer = e :: rest)
      (hlive : s.endEmitted = false) :
      SStep hwm (.deliver e) s
        { s with buffer := rest, delivered := s.delivered ++ [e] }
  | emitEnd (s : SState)
      (hpending : s.pendingChunks = [])
      (hbuf : s.buffer = [])
      (hlive : s.endEmitted = false) :
      SStep hwm .emitEnd s { s with endEmitted := true }

/-- A run of the stream: a sequence of labeled transitions. -/
inductive SRun (hwm : Nat) : SState → List SLabel → SState → Prop where
  | nil (s : SState) : SRun hwm s [] s
  | cons (s t u : SState) (l : SLabel) (ls : List SLabel)
      (hstep : SStep hwm l s t) (hrun : SRun hwm t ls u) :
      SRun hwm s (l :: ls) u

/-- A state from which no transition is possible: the stream is finished. -/
def STerminal (hwm : Nat) (s : SState) : Prop :=
  ∀ l s', ¬ SStep hwm l s s'

/-- The delivery invariant: what has been delivered followed by what is
still buffered is exactly the relay output for the chunks processed so
far, in order. -/
def SInv (s : SState) : Prop :=
  s.delivered ++ s.buffer = eventsOfChunks s.processed

/-- The input-partition invariant: processed chunks followed by pending
chunks are the original input. -/
def ChunkInv (chunks : List (List ClarinetCallback)) (s : SState) : Prop :=
  s.processed ++ s.pendingChunks = chunks

theorem sstep_inv {hwm : Nat} {l : SLabel} {s s' : SState}
    (h : SStep hwm l s s') (hinv : SInv s) : SInv s' := by
  cases h with
  | accept s c rest hroom hpending hlive =>
      simp [SInv, eventsOfChunks_append, eventsOfChunks] at hinv ⊢
      simp [← hinv]
  | deliver s e rest hbuf hlive =>
      simp [SInv] at hinv ⊢
      simpa [hbuf] using hinv
  | emitEnd s hpending hbuf hlive =>
      simpa [SInv] using hinv

theorem sstep_chunkInv {hwm : Nat} {l : SLabel} {s s' : SState}
    {chunks : List (List ClarinetCallback)}
    (h : SStep hwm l s s') (hinv : ChunkInv chunks s) : ChunkInv chunks s' := by
  cases h with
  | accept s c rest hroom hpending hlive =>
      simp [ChunkInv] at hinv ⊢
      simpa [hpending] using hinv
  | deliver s e rest hbuf hlive => simpa [ChunkInv] using hinv
  | emitEnd s hpending hbuf hlive => simpa [ChunkInv] using hinv

theorem srun_inv {hwm : Nat} {s s' : SState} {tr : List SLabel}
    (h : SRun hwm s tr s') (hinv : SInv s) : SInv s' := by
  induction h with
  | nil s => exact hinv
  | cons s t u l ls hstep hrun ih => exact ih (sstep_inv hstep hinv)

theorem srun_chunkInv {hwm : Nat} {s s' : SState} {tr : List SLabel}
    {chunks : List (List ClarinetCallback)}
    (h : SRun hwm s tr s') (hinv : ChunkInv chunks s) : ChunkInv chunks s' := by
  induction h with
  | nil s => exact hinv
  | cons s t u l ls hstep hrun ih => exact ih (sstep_chunkInv hstep hinv)

/-- Once `end` has fired, no further transition is possible. -/
theorem endEmitted_absorbing {hwm : Nat} {l : SLabel} {s s' : SState}
    (hend : s.endEmitted = true) : ¬ SStep hwm l s s' := by
  intro h
  cases h <;> simp_all

/-- A terminal state of a live stream has fired `end` (needs `0 < hwm`:
with room in the buffer or something buffered to deliver, a transition is
always available otherwise). -/
theorem sterminal_endEmitted {hwm : Nat} {s : SState}
    (hpos : 0 < hwm) (hterm : STerminal hwm s) : s.endEmitted = true := by
  by_contra hne
  have hlive : s.endEmitted = false := by
    cases h : s.endEmitted
    · rfl
    · exact absurd h hne
  cases hbuf : s.buffer with
  | cons e rest =>
      exact hterm (.deliver e) _ (SStep.deliver s e rest hbuf hlive)
  | nil =>
      cases hpending : s.pendingChunks with
      | nil => exact hterm .emitEnd _ (SStep.emitEnd s hpending hbuf hlive)
      | cons c rest =>
          have hroom : s.buffer.length < hwm := by simp [hbuf, hpos]
          exact hterm (.accept c) _ (SStep.accept s c rest hroom hpending hlive)

/-- A run starting from a state whose `end` has fired is empty. -/
theorem srun_from_ended {hwm : Nat} {s u : SState} {tr : List SLabel}
    (hrun : SRun hwm s tr u) (hend : s.endEmitted = true) :
    tr = [] ∧ u = s := by
  cases hrun with
  | nil s => exact ⟨rfl, rfl⟩
  | cons s t u l ls hstep hrun => exact absurd hstep (endEmitted_absorbing hend)

/-- In a run from a live state to an ended state, the `end` notification is
the last transition, occurs nowhere else, and at that point the buffer and
the pending input are both empty (and remain so in the final state). -/
theorem srun_to_ended {hwm : Nat} {s u : SState} {tr : List SLabel}
    (hrun : SRun hwm s tr u) (hs : s.endEmitted = false)
    (hu : u.endEmitted = true) :
    ∃ tr₀, tr = tr₀ ++ [SLabel.emitEnd] ∧ SLabel.emitEnd ∉ tr₀ ∧
      u.buffer = [] ∧ u.pendingChunks = [] := by
  induction hrun with
  | nil s => simp [hs] at hu
  | cons s t u l ls hstep hrun ih =>
      cases hstep with
      | accept s c rest hroom hpending hlive =>
          obtain ⟨tr₀, htr, hnotin, hbuf, hpend⟩ := ih (by simpa using hlive) hu
          exact ⟨SLabel.accept c :: tr₀, by simp [htr], by simp [hnotin],
            hbuf, hpend⟩
      | deliver s e rest hbuf hlive =>
          obtain ⟨tr₀, htr, hnotin, hbuf', hpend⟩ := ih (by simpa using hlive) hu
          exact ⟨SLabel.deliver e :: tr₀, by simp [htr], by simp [hnotin],
            hbuf', hpend⟩
      | emitEnd s hpending hbuf hlive =>
          obtain ⟨hls, huEq⟩ := srun_from_ended hrun (by simp)
          subst hls
          refine ⟨[], by simp, by simp, ?_, ?_⟩ <;> simp [huEq, hbuf, hpending]

/-- At the end of a complete (terminal) run, everything the relay enqueued
has been delivered, in order. -/
theorem srun_terminal_delivered {hwm : Nat}
    {chunks : List (List ClarinetCallback)} {tr : List SLabel} {s : SState}
    (hpos : 0 < hwm) (hrun : SRun hwm (initSState chunks) tr s)
    (hterm : STerminal hwm s) : s.delivered = eventsOfChunks chunks := by
  have hend := sterminal_endEmitted hpos hterm
  obtain ⟨tr₀, htr, hnotin, hbuf, hpend⟩ :=
    srun_to_ended hrun (by simp [initSState]) hend
  have hinv : SInv s :=
    srun_inv hrun (by simp [SInv, initSState, eventsOfChunks])
  have hch : ChunkInv chunks s :=
    srun_chunkInv hrun (by simp [ChunkInv, initSState])
  have hproc : s.processed = chunks := by
    simpa [ChunkInv, hpend] using hch
  simpa [SInv, hbuf, hproc] using hinv

/-! ## Claims -/

/-- C1: every parser callback the relay subscribes to enqueues exactly one
ParseEvent, synchronously within that callback, with the documented
mapping — closearray, closeobject and openarray carry no payload; key,
openobject, value and error pass their callback argument through unchanged
(so a value's scalar type is preserved) — and the events of consecutive
callbacks concatenate in callback order: no batching, no reordering. -/
theorem c1_relay_mapping :
    relayEvent ClarinetCallback.closearray = [⟨"closearray", JSVal.undefined⟩]
    ∧ relayEvent ClarinetCallback.closeobject
        = [⟨"closeobject", JSVal.undefined⟩]
    ∧ relayEvent ClarinetCallback.openarray = [⟨"openarray", JSVal.undefined⟩]
    ∧ (∀ name, relayEvent (ClarinetCallback.key name)
        = [⟨"key", JSVal.str name⟩])
    ∧ (∀ firstKey, relayEvent (ClarinetCallback.openobject firstKey)
        = [⟨"openobject", firstKey⟩])
    ∧ (∀ v, relayEvent (ClarinetCallback.value v) = [⟨"value", v⟩])
    ∧ (∀ errInfo, relayEvent (ClarinetCallback.error errInfo)
        = [⟨"error", errInfo⟩])
    ∧ (∀ c₁ c₂, eventsOfChunk (c₁ ++ c₂)
        = eventsOfChunk c₁ ++ eventsOfChunk c₂) :=
  ⟨rfl, rfl, rfl, fun _ => rfl, fun _ => rfl, fun _ => rfl, fun _ => rfl,
    eventsOfChunk_append⟩

/-- C10: the constructor forces object mode — `options.objectMode = true`
is set unconditionally, creating the options object when none (or a falsy
one) is given and overriding any caller-supplied `objectMode`, while other
options such as `highWaterMark` pass through untouched. -/
theorem c10_objectMode_forced :
    (∀ options, (constructorOptions options).objectMode = some true)
    ∧ constructorOptions none
        = { objectMode := some true, highWaterMark := none }
    ∧ (∀ o, (constructorOptions (some o)).highWaterMark = o.highWaterMark) :=
  ⟨fun options => by cases options <;> rfl, rfl, fun _ => rfl⟩

/-- C3: if the parser's chunk-consumed `data` signal fires with an empty
pending-write queue, `shift()` yields `undefined` and invoking it is a
fatal protocol violation: the fault is never silently ignored — the whole
run aborts with the fault, regardless of any further operations. -/
theorem c3_data_without_pending_is_fatal :
    dataHandler [] = Except.error StreamFault.protocolViolation
    ∧ ∀ (s : QState) (ops : List QOp), s.queue = [] →
        runQueue s (QOp.consume :: ops)
          = Except.error StreamFault.protocolViolation := by
  refine ⟨rfl, fun s ops h => ?_⟩
  simp [runQueue, queueStep, dataHandler, h]

theorem c3_data_without_pending_is_fatal_witness :
    runQueue initQState (QOp.consume :: [QOp.submit 5])
      = Except.error StreamFault.protocolViolation :=
  c3_data_without_pending_is_fatal.2 initQState [QOp.submit 5] rfl

/-- C5: `_transform` appends exactly one unresolved completion callback at
the tail of the pending-write queue; each chunk-consumed signal pops
exactly the head; consequently, on any successful run, the resolved
callbacks followed by the live queue are precisely the submitted callbacks
in submission order (strict FIFO resolution) and the queue length equals
the number of submitted chunks not yet acknowledged. -/
theorem c5_pending_queue_fifo :
    (∀ q cb, transformEnqueue q cb = q ++ [cb])
    ∧ (∀ cb rest, dataHandler (cb :: rest) = Except.ok (cb, rest))
    ∧ ∀ (ops : List QOp) (s' : QState),
        runQueue initQState ops = Except.ok s' →
        s'.submitted = s'.resolved ++ s'.queue
        ∧ s'.queue.length = s'.submitted.length - s'.resolved.length := by
  refine ⟨fun _ _ => rfl, fun _ _ => rfl, fun ops s' h => ?_⟩
  have hinv : QInv s' := runQueue_inv ops initQState s' (by simp [QInv, initQState]) h
  refine ⟨hinv, ?_⟩
  simp [QInv] at hinv
  simp [hinv]

theorem c5_pending_queue_fifo_witness :
    (let s' : QState :=
      { queue := [1], submitted := [0, 1], resolved := [0] }
     s'.submitted = s'.resolved ++ s'.queue
       ∧ s'.queue.length = s'.submitted.length - s'.resolved.length) :=
  c5_pending_queue_fifo.2.2 [QOp.submit 0, QOp.submit 1, QOp.consume]
    { queue := [1], submitted := [0, 1], resolved := [0] } rfl

/-- C4 counterexample: the adapter never subscribes to the parser's `end`
callback (the handler at src/index.js lines 125-131 is commented out), so
when that callback fires nothing is enqueued — in particular no
`{type: 'end'}` ParseEvent — and `end` is not among the subscribed event
names. -/
theorem c4_counterexample :
    relayEvent ClarinetCallback.onEnd = []
    ∧ ParseEvent.mk "end" JSVal.undefined ∉ relayEvent ClarinetCallback.onEnd
    ∧ "end" ∉ subscribedEventNames := by
  refine ⟨rfl, by simp [relayEvent], by decide⟩

/-- C4 (amended): when the parser's `end` callback fires the adapter
enqueues nothing (the subscription is commented out and
`parseStream.close()` is never called, so the callback in fact never
fires); every ParseEvent the adapter produces has a type in the closed set
{closearray, closeobject, key, openarray, openobject, value, error} —
`end` is not a producible ParseEvent type. Stream termination is signalled
by the stream's own terminal `end` notification, not by a data item. -/
theorem c4_end_not_produced :
    relayEvent ClarinetCallback.onEnd = []
    ∧ ∀ cb ev, ev ∈ relayEvent cb →
        ev.type ∈ subscribedEventNames ∧ ev.type ≠ "end" := by
  refine ⟨rfl, fun cb ev h => ⟨relayEvent_type_subscribed cb ev h, ?_⟩⟩
  intro hend
  have := relayEvent_type_subscribed cb ev h
  rw [hend] at this
  exact absurd this (by decide)

theorem c4_end_not_produced_witness :
    (ParseEvent.mk "openarray" JSVal.undefined).type ∈ subscribedEventNames
    ∧ (ParseEvent.mk "openarray" JSVal.undefined).type ≠ "end" :=
  c4_end_not_produced.2 ClarinetCallback.openarray
    (ParseEvent.mk "openarray" JSVal.undefined) (by simp [relayEvent, OPENARRAY])

/-- C2: events are delivered to the consumer in exactly the parser's
emission order — at every point of every run the delivered sequence is an
initial segment of the emission sequence (so if the parser emitted A
before B, A is delivered before B, with no drops, duplicates or
reordering), and a complete run delivers the emission sequence in full. -/
theorem c2_delivery_order {hwm : Nat} {chunks : List (List ClarinetCallback)}
    {tr : List SLabel} {s : SState}
    (hpos : 0 < hwm) (hrun : SRun hwm (initSState chunks) tr s) :
    (∃ rest, eventsOfChunks chunks = s.delivered ++ rest)
    ∧ (STerminal hwm s → s.delivered = eventsOfChunks chunks) := by
  constructor
  · have hinv : SInv s :=
      srun_inv hrun (by simp [SInv, initSState, eventsOfChunks])
    have hch : ChunkInv chunks s :=
      srun_chunkInv hrun (by simp [ChunkInv, initSState])
    refine ⟨s.buffer ++ eventsOfChunks s.pendingChunks, ?_⟩
    calc eventsOfChunks chunks
        = eventsOfChunks (s.processed ++ s.pendingChunks) := by
          rw [hch]
      _ = eventsOfChunks s.processed ++ eventsOfChunks s.pendingChunks :=
          eventsOfChunks_append _ _
      _ = (s.delivered ++ s.buffer) ++ eventsOfChunks s.pendingChunks := by
          rw [hinv]
      _ = s.delivered ++ (s.buffer ++ eventsOfChunks s.pendingChunks) := by
          simp
  · intro hterm
    exact srun_terminal_delivered hpos hrun hterm

/-- C6: JSON syntax errors are delivered only as `{type: 'error', data}`
events in the output sequence — the error callback maps to a data item,
events emitted after the error keep their place in the output sequence
(the stream continues and later well-formed JSON yields further normal
events), and a chunk containing error callbacks is accepted by the stream
exactly like any other chunk, leaving the stream live (no stream-level
fault is raised for a syntax error). -/
theorem c6_errors_as_data :
    (∀ errInfo, relayEvent (ClarinetCallback.error errInfo)
        = [⟨"error", errInfo⟩])
    ∧ (∀ pre errInfo post,
        eventsOfChunk (pre ++ ClarinetCallback.error errInfo :: post)
          = eventsOfChunk pre ++ ⟨"error", errInfo⟩ :: eventsOfChunk post)
    ∧ (∀ hwm (s : SState) c rest, s.buffer.length < hwm →
        s.pendingChunks = c :: rest → s.endEmitted = false →
        ∃ s', SStep hwm (SLabel.accept c) s s' ∧ s'.endEmitted = false) := by
  refine ⟨fun _ => rfl, fun pre errInfo post => ?_, ?_⟩
  · simp [eventsOfChunk, relayEvent, ERROR]
  · intro hwm s c rest hroom hpending hlive
    exact ⟨_, SStep.accept s c rest hroom hpending hlive, hlive⟩

/-- A concrete chunk for which the parser fires only an error callback. -/
def wErrChunk : List ClarinetCallback :=
  [ClarinetCallback.error (JSVal.errObj "Bad value")]

theorem c6_errors_as_data_witness :
    ∃ s', SStep 16 (SLabel.accept wErrChunk) (initSState [wErrChunk]) s'
      ∧ s'.endEmitted = false :=
  c6_errors_as_data.2.2 16 (initSState [wErrChunk]) wErrChunk []
    (by decide) rfl rfl

/-- C7: whenever the buffered-but-undelivered event count has reached the
high-water mark (the single recognized option, defaulting to 16), the
stream does not acknowledge a new input chunk: an accept transition
requires the buffer to be below `hwm`, and from a full buffer the only
enabled transition is a delivery, which drains exactly one item. -/
theorem c7_backpressure :
    effectiveHighWaterMark (constructorOptions none) = 16
    ∧ (∀ hwm c (s s' : SState),
        SStep hwm (SLabel.accept c) s s' → s.buffer.length < hwm)
    ∧ (∀ hwm l (s s' : SState), 0 < hwm → hwm ≤ s.buffer.length →
        SStep hwm l s s' →
        (∃ e, l = SLabel.deliver e)
        ∧ s'.buffer.length = s.buffer.length - 1) := by
  refine ⟨rfl, ?_, ?_⟩
  · intro hwm c s s' h
    cases h with
    | accept s c rest hroom hpending hlive => exact hroom
  · intro hwm l s s' hpos hfull h
    cases h with
    | accept s c rest hroom hpending hlive => omega
    | deliver s e rest hbuf hlive =>
        exact ⟨⟨e, rfl⟩, by simp [hbuf]⟩
    | emitEnd s hpending hbuf hlive =>
        rw [hbuf] at hfull
        simp at hfull
        omega

/-- A concrete state whose buffer is full at `hwm = 1`. -/
def wFullState : SState :=
  { pendingChunks := [[ClarinetCallback.closearray]], processed := [],
    buffer := [ParseEvent.mk "openarray" JSVal.undefined],
    delivered := [], endEmitted := false }

/-- `wFullState` after delivering its one buffered event. -/
def wDrainedState : SState :=
  { pendingChunks := [[ClarinetCallback.closearray]], processed := [],
    buffer := [],
    delivered := [ParseEvent.mk "openarray" JSVal.undefined],
    endEmitted := false }

theorem c7_backpressure_witness :
    (∃ e, SLabel.deliver (ParseEvent.mk "openarray" JSVal.undefined)
        = SLabel.deliver e)
    ∧ wDrainedState.buffer.length = wFullState.buffer.length - 1 :=
  c7_backpressure.2.2 1
    (SLabel.deliver (ParseEvent.mk "openarray" JSVal.undefined))
    wFullState wDrainedState (by decide) (by decide)
    (SStep.deliver wFullState (ParseEvent.mk "openarray" JSVal.undefined)
      [] rfl rfl)

/-! Concrete two-chunk input and two complete runs with different
consumption schedules, used to witness the run-level claims. -/

/-- A concrete first chunk: the parser fires `openarray`. -/
def wChunkA : List ClarinetCallback := [ClarinetCallback.openarray]

/-- A concrete second chunk: the parser fires `closearray`. -/
def wChunkB : List ClarinetCallback := [ClarinetCallback.closearray]

/-- The concrete two-chunk input. -/
def wInput : List (List ClarinetCallback) := [wChunkA, wChunkB]

/-- The event relayed for `wChunkA`. -/
def wEvA : ParseEvent := ⟨OPENARRAY, JSVal.undefined⟩

/-- The event relayed for `wChunkB`. -/
def wEvB : ParseEvent := ⟨CLOSEARRAY, JSVal.undefined⟩

/-- The final state of a complete run over `wInput`. -/
def wFinal : SState :=
  { pendingChunks := [], processed := wInput, buffer := [],
    delivered := [wEvA, wEvB], endEmitted := true }

/-- Flowing-style schedule at `hwm = 16`: both chunks are accepted, then
the buffered events are delivered, then `end` fires. -/
theorem wRunFlowing :
    SRun 16 (initSState wInput)
      [SLabel.accept wChunkA, SLabel.accept wChunkB,
       SLabel.deliver wEvA, SLabel.deliver wEvB, SLabel.emitEnd] wFinal := by
  refine SRun.cons _ _ _ _ _
    (SStep.accept (initSState wInput) wChunkA [wChunkB] (by decide) rfl rfl) ?_
  refine SRun.cons _ _ _ _ _
    (SStep.accept _ wChunkB [] (by decide) rfl rfl) ?_
  refine SRun.cons _ _ _ _ _ (SStep.deliver _ wEvA [wEvB] rfl rfl) ?_
  refine SRun.cons _ _ _ _ _ (SStep.deliver _ wEvB [] rfl rfl) ?_
  refine SRun.cons _ _ _ _ _ (SStep.emitEnd _ rfl rfl rfl) ?_
  exact SRun.nil _

/-- Pull-style schedule at `hwm = 1`: each chunk is accepted only after the
previous chunk's events were drained, then `end` fires. -/
theorem wRunPull :
    SRun 1 (initSState wInput)
      [SLabel.accept wChunkA, SLabel.deliver wEvA,
       SLabel.accept wChunkB, SLabel.deliver wEvB, SLabel.emitEnd] wFinal := by
  refine SRun.cons _ _ _ _ _
    (SStep.accept (initSState wInput) wChunkA [wChunkB] (by decide) rfl rfl) ?_
  refine SRun.cons _ _ _ _ _ (SStep.deliver _ wEvA [] rfl rfl) ?_
  refine SRun.cons _ _ _ _ _
    (SStep.accept _ wChunkB [] (by decide) rfl rfl) ?_
  refine SRun.cons _ _ _ _ _ (SStep.deliver _ wEvB [] rfl rfl) ?_
  refine SRun.cons _ _ _ _ _ (SStep.emitEnd _ rfl rfl rfl) ?_
  exact SRun.nil _

/-- `wFinal` is terminal: once `end` has fired no transition is enabled. -/
theorem wFinal_terminal (hwm : Nat) : STerminal hwm wFinal := by
  intro l s' h
  exact endEmitted_absorbing (by simp [wFinal]) h

theorem c2_delivery_order_witness :
    (∃ rest, eventsOfChunks wInput = wFinal.delivered ++ rest)
    ∧ (STerminal 16 wFinal → wFinal.delivered = eventsOfChunks wInput) :=
  c2_delivery_order (by decide) wRunFlowing

/-- C8: on every complete run, the terminal `end` notification fires
exactly once, as the last transition — every delivery happens strictly
before it, nothing is delivered after it — and at that point every relayed
event has been delivered to the consumer. -/
theorem c8_end_after_all_events
    (hwm : Nat) (chunks : List (List ClarinetCallback))
    (tr : List SLabel) (s : SState)
    (hpos : 0 < hwm) (hrun : SRun hwm (initSState chunks) tr s)
    (hterm : STerminal hwm s) :
    tr.count SLabel.emitEnd = 1
    ∧ (∃ tr₀, tr = tr₀ ++ [SLabel.emitEnd] ∧ SLabel.emitEnd ∉ tr₀)
    ∧ s.delivered = eventsOfChunks chunks := by
  have hend := sterminal_endEmitted hpos hterm
  obtain ⟨tr₀, htr, hnotin, hbuf, hpend⟩ :=
    srun_to_ended hrun (by simp [initSState]) hend
  refine ⟨?_, ⟨tr₀, htr, hnotin⟩, srun_terminal_delivered hpos hrun hterm⟩
  subst htr
  simp [List.count_append, List.count_eq_zero.mpr hnotin]

theorem c8_end_after_all_events_witness :
    ([SLabel.accept wChunkA, SLabel.accept wChunkB, SLabel.deliver wEvA,
      SLabel.deliver wEvB, SLabel.emitEnd] : List SLabel).count SLabel.emitEnd
        = 1
    ∧ (∃ tr₀, ([SLabel.accept wChunkA, SLabel.accept wChunkB,
        SLabel.deliver wEvA, SLabel.deliver wEvB, SLabel.emitEnd]
          : List SLabel) = tr₀ ++ [SLabel.emitEnd] ∧ SLabel.emitEnd ∉ tr₀)
    ∧ wFinal.delivered = eventsOfChunks wInput :=
  c8_end_after_all_events 16 wInput _ wFinal (by decide) wRunFlowing
    (wFinal_terminal 16)

/-- C9: the event sequence observed by a pull-mode consumer and by a
push-mode consumer on the same input are identical in count and order —
any two complete runs over the same input, whatever their high-water marks
and interleaving of acceptance and delivery, deliver the same sequence. -/
theorem c9_consumption_mode_equivalence
    (chunks : List (List ClarinetCallback)) (hwm₁ hwm₂ : Nat)
    (tr₁ tr₂ : List SLabel) (s₁ s₂ : SState)
    (hpos₁ : 0 < hwm₁) (hpos₂ : 0 < hwm₂)
    (hrun₁ : SRun hwm₁ (initSState chunks) tr₁ s₁)
    (hterm₁ : STerminal hwm₁ s₁)
    (hrun₂ : SRun hwm₂ (initSState chunks) tr₂ s₂)
    (hterm₂ : STerminal hwm₂ s₂) :
    s₁.delivered = s₂.delivered := by
  rw [srun_terminal_delivered hpos₁ hrun₁ hterm₁,
      srun_terminal_delivered hpos₂ hrun₂ hterm₂]

theorem c9_consumption_mode_equivalence_witness :
    wFinal.delivered = wFinal.delivered :=
  c9_consumption_mode_equivalence wInput 16 1 _ _ wFinal wFinal
    (by decide) (by decide) wRunFlowing (wFinal_terminal 16)
    wRunPull (wFinal_terminal 1)

end ClarinetStream
